import Mathlib

/-!
Verification development for the `bob` trading backtester.

Shallow embedding conventions:
* JavaScript numbers are modelled as exact rationals (`ℚ`).
* A JavaScript value that is not a finite number (NaN, ±Infinity, or
  `undefined`) is modelled as `none : Option ℚ`; every numeric comparison
  against such a value is `False`, matching the JS semantics of `<`/`>`
  on NaN/undefined.  A division is modelled by `checkedDiv`, which returns
  `none` exactly when the denominator is zero (the JS result would be
  NaN or ±Infinity in that case).
* A thrown `TypeError` (reading `.close` of `undefined`, which happens when
  an indicator reads the last element of an empty array) is modelled by an
  `Option` result that is `none` exactly on the crashing inputs.
* `calculateADX` returns `Option (Option ℚ)`: the outer `none` is the
  JavaScript `null` (insufficient data), the inner `none` is NaN.
-/

namespace Bob

attribute [local semireducible] Rat.add Rat.mul Rat.sub Rat.inv Rat.ofScientific

/-- One OHLCV bar.  `opn` is the JS `open` field (a Lean keyword). -/
structure Candle where
  time : ℤ
  opn : ℚ
  high : ℚ
  low : ℚ
  close : ℚ
deriving DecidableEq, Repr, Inhabited

/-- Division with the zero-denominator case made explicit: `none` models the
non-finite JS result (NaN or ±Infinity). -/
def checkedDiv (a b : ℚ) : Option ℚ :=
  if b = 0 then none else some (a / b)

/-- Addition on possibly-non-numeric values; NaN/undefined propagates. -/
def oadd : Option ℚ → Option ℚ → Option ℚ
  | some a, some b => some (a + b)
  | _, _ => none

/-- JS `reduce((s, x) => s + x, 0)` over possibly-non-numeric values. -/
def osum (xs : List (Option ℚ)) : Option ℚ :=
  xs.foldl oadd (some 0)

/-- JS `xs[xs.length - 1]` on a possibly-empty array of possibly-non-numeric
values: out-of-bounds access yields `undefined`, modelled as `none`. -/
def jsLast (xs : List (Option ℚ)) : Option ℚ :=
  (xs.getLast?).getD none

/-- JS `a < b` where both sides may be non-numeric; any comparison involving
NaN/undefined is false. -/
def jsLt (a b : Option ℚ) : Prop :=
  match a, b with
  | some x, some y => x < y
  | _, _ => False

instance (a b : Option ℚ) : Decidable (jsLt a b) :=
  match a, b with
  | some x, some y => (inferInstance : Decidable (x < y))
  | some _, none => isFalse (fun h => h)
  | none, some _ => isFalse (fun h => h)
  | none, none => isFalse (fun h => h)

/-- JS `a <= b` where both sides may be non-numeric; any comparison involving
NaN/undefined is false. -/
def jsLe (a b : Option ℚ) : Prop :=
  match a, b with
  | some x, some y => x ≤ y
  | _, _ => False

instance (a b : Option ℚ) : Decidable (jsLe a b) :=
  match a, b with
  | some x, some y => (inferInstance : Decidable (x ≤ y))
  | some _, none => isFalse (fun h => h)
  | none, some _ => isFalse (fun h => h)
  | none, none => isFalse (fun h => h)

/-- JS `adx !== null && adx < t` for the ADX result (outer `none` = null,
inner `none` = NaN; both make the conjunction false). -/
def adxLt (a : Option (Option ℚ)) (t : ℚ) : Prop :=
  match a with
  | some (some q) => q < t
  | _ => False

instance (a : Option (Option ℚ)) (t : ℚ) : Decidable (adxLt a t) :=
  match a with
  | some (some q) => (inferInstance : Decidable (q < t))
  | some none => isFalse (fun h => h)
  | none => isFalse (fun h => h)

/-- JS `adx !== null && adx > t` for the ADX result. -/
def adxGt (a : Option (Option ℚ)) (t : ℚ) : Prop :=
  match a with
  | some (some q) => t < q
  | _ => False

instance (a : Option (Option ℚ)) (t : ℚ) : Decidable (adxGt a t) :=
  match a with
  | some (some q) => (inferInstance : Decidable (t < q))
  | some none => isFalse (fun h => h)
  | none => isFalse (fun h => h)

/-- JS `Number.prototype.toFixed(2)` followed by `parseFloat`: round to the
nearest hundredth, ties away from zero towards the larger integer numerator. -/
def jsToFixed2 (q : ℚ) : ℚ :=
  (⌊q * 100 + 1/2⌋ : ℚ) / 100

/-- The `close` of the last candle, `none` on the empty array (where the JS
code would read `.close` of `undefined` and throw). -/
def lastClose (candles : List Candle) : Option ℚ :=
  (candles.getLast?).map Candle.close

/-- src/src/indicators/smaIndicator.js `calculateSMA`.  `none` models the
`TypeError` thrown on an empty array in the insufficient-data branch. -/
def calculateSMA (candles : List Candle) (period : ℕ) : Option ℚ :=
  if candles.length < period then
    lastClose candles
  else
    some (((candles.map Candle.close).drop (candles.length - period)).sum / period)

/-- src/src/indicators/emaIndicator.js `calculateEMA`: SMA seed over the last
`period` closes, then the EMA recurrence over the last `period - 1` closes.
`none` models the `TypeError` thrown on an empty array. -/
def calculateEMA (candles : List Candle) (period : ℕ) : Option ℚ :=
  if candles.length < period then
    lastClose candles
  else
    let closes := candles.map Candle.close
    let sma := (closes.drop (closes.length - period)).sum / period
    let multiplier : ℚ := 2 / ((period : ℚ) + 1)
    some ((closes.drop (closes.length - period + 1)).foldl
      (fun ema c => (c - ema) * multiplier + ema) sma)

/-- Bollinger band triple. -/
structure BollingerResult where
  upper : ℚ
  middle : ℚ
  lower : ℚ
deriving DecidableEq, Repr

/-- Bollinger bands (unnamed bollingerBandsIndicator.js).  `Math.sqrt` is not
rational, so it is taken as an oracle parameter `sqrtFn`; every claim in this
development concerns only the insufficient-data branch, which never uses it.
`none` models the `TypeError` thrown on an empty array. -/
def calculateBollingerBands (sqrtFn : ℚ → ℚ) (candles : List Candle)
    (period : ℕ) (multiplier : ℚ) : Option BollingerResult :=
  if candles.length < period then
    (candles.getLast?).map (fun c => ⟨c.close, c.close, c.close⟩)
  else
    let window := (candles.map Candle.close).drop (candles.length - period)
    let sma := window.sum / period
    let stdDev := sqrtFn ((window.map (fun c => (c - sma) * (c - sma))).sum / period)
    some ⟨sma + multiplier * stdDev, sma, sma - multiplier * stdDev⟩

/-- src/src/indicators/rsiIndicator.js `calculateRSI` with Wilder smoothing.
The JS branch `change >= 0` routes a zero change to the gain side. -/
def calculateRSI (candles : List Candle) (period : ℕ) : ℚ :=
  if candles.length < period + 1 then 50
  else
    let changes := (candles.zip (candles.drop 1)).map (fun pc => pc.2.close - pc.1.close)
    let gains := ((changes.take period).map (fun c => if 0 ≤ c then c else 0)).sum
    let losses := ((changes.take period).map (fun c => if 0 ≤ c then 0 else -c)).sum
    let final := (changes.drop period).foldl
      (fun (a : ℚ × ℚ) c =>
        ((a.1 * ((period : ℚ) - 1) + (if 0 ≤ c then c else 0)) / period,
         (a.2 * ((period : ℚ) - 1) + (if 0 ≤ c then 0 else -c)) / period))
      (gains / period, losses / period)
    if final.2 = 0 then 100
    else 100 - 100 / (1 + final.1 / final.2)

/-- True range of the bar `pc.2` given its predecessor `pc.1`. -/
def trueRangeOf (pc : Candle × Candle) : ℚ :=
  max (pc.2.high - pc.2.low) (max |pc.2.high - pc.1.close| |pc.2.low - pc.1.close|)

/-- Average True Range (unnamed atrIndicator.js): simple mean of the first
`period` true ranges, then Wilder smoothing over the rest. -/
def calculateATR (candles : List Candle) (period : ℕ) : ℚ :=
  if candles.length < period + 1 then 0
  else
    let trueRanges := (candles.zip (candles.drop 1)).map trueRangeOf
    let atr0 := (trueRanges.take period).sum / period
    (trueRanges.drop period).foldl
      (fun atr tr => (atr * ((period : ℚ) - 1) + tr) / period) atr0

/-- MACD line / signal line / histogram.  All three are finite rationals:
the MACD arithmetic divides only by the fixed positive periods. -/
structure MACDResult where
  macdLine : ℚ
  signalLine : ℚ
  histogram : ℚ
deriving DecidableEq, Repr, Inhabited

/-- A synthetic candle carrying only a close, as built by `calculateMACD`. -/
def mkCloseOnly (q : ℚ) : Candle :=
  { time := 0, opn := 0, high := 0, low := 0, close := q }

/-- MACD (unnamed macdIndicator.js, second file of src/unnamed/part_005):
the signal line is the EMA of a synthetic constant history of repeated
`fastEMA - slowEMA` values over the last `signalPeriod` candles.  `none`
models the crash of `calculateEMA` on an empty array. -/
def calculateMACD (candles : List Candle)
    (fastPeriod slowPeriod signalPeriod : ℕ) : Option MACDResult :=
  match candles with
  | [] => none
  | _ :: _ =>
    let fastEMA := (calculateEMA candles fastPeriod).getD 0
    let slowEMA := (calculateEMA candles slowPeriod).getD 0
    let macdLine := fastEMA - slowEMA
    let macdCandles := (candles.drop (candles.length - signalPeriod)).map
      (fun _ => mkCloseOnly (fastEMA - slowEMA))
    let signalLine := (calculateEMA macdCandles signalPeriod).getD 0
    some { macdLine := macdLine, signalLine := signalLine,
           histogram := macdLine - signalLine }

/-- Stochastic result; `none` components model NaN/undefined. -/
structure StochResult where
  k : Option ℚ
  d : Option ℚ
deriving DecidableEq, Repr

/-- One 3-bar smoothing pass of `calculateStochastic`: the JS loop runs the
index from 2 to `length - 1`, so inputs of length ≤ 2 produce the empty
array. -/
def smoothPass (xs : List (Option ℚ)) : List (Option ℚ) :=
  (List.range' 2 (xs.length - 2)).map
    (fun i => (oadd (oadd (xs.getD i none) (xs.getD (i - 1) none)) (xs.getD (i - 2) none)).map
      (fun s => s / 3))

/-- Stochastic oscillator (unnamed stochasticIndicator.js, src/unnamed/part_004).
Raw %K over each `period`-window (the JS −Infinity/＋Infinity fold seeds are
replaced by the head of the nonempty window, which gives the same max/min),
then `smoothK` smoothing passes, then %D as the mean of the last `smoothD`
smoothed values, or the last element when fewer exist. -/
def calculateStochastic (candles : List Candle)
    (period smoothK smoothD : ℕ) : StochResult :=
  if candles.length < period then { k := some 50, d := some 50 }
  else
    let rawKValues := (List.range' (period - 1) (candles.length - (period - 1))).map
      (fun i =>
        let window := (candles.drop (i + 1 - period)).take period
        let highs := window.map Candle.high
        let lows := window.map Candle.low
        let highestHigh := highs.foldl max (highs.headD 0)
        let lowestLow := lows.foldl min (lows.headD 0)
        let currentClose := (candles.getD i default).close
        (checkedDiv (currentClose - lowestLow) (highestHigh - lowestLow)).map
          (fun r => r * 100))
    let smoothedKValues := smoothPass^[smoothK] rawKValues
    let dValue :=
      if smoothD ≤ smoothedKValues.length then
        (osum (smoothedKValues.drop (smoothedKValues.length - smoothD))).map
          (fun s => s / (smoothD : ℚ))
      else jsLast smoothedKValues
    { k := jsLast smoothedKValues, d := dValue }

/-- ADX (unnamed adxIndicator.js, first file of src/unnamed/part_005).
Outer `none` is the JS `null` (fewer than `period + 2` candles); the inner
`none` is NaN from a zero `smoothedTR` or a zero `plusDI + minusDI`.  The JS
loop recomputes DX from the running smoothed sums each iteration and returns
the final value, so the result depends only on the final smoothed sums. -/
def calculateADX (candles : List Candle) (period : ℕ) : Option (Option ℚ) :=
  if candles.length < period + 2 then none
  else
    let pairs := candles.zip (candles.drop 1)
    let trueRange := pairs.map trueRangeOf
    let plusDM := pairs.map (fun pc =>
      let upMove := pc.2.high - pc.1.high
      let downMove := pc.1.low - pc.2.low
      if downMove < upMove ∧ 0 < upMove then upMove else 0)
    let minusDM := pairs.map (fun pc =>
      let upMove := pc.2.high - pc.1.high
      let downMove := pc.1.low - pc.2.low
      if upMove < downMove ∧ 0 < downMove then downMove else 0)
    let wilder := fun (acc : ℚ) (x : ℚ) => acc - acc / period + x
    let smoothedTR := (trueRange.drop period).foldl wilder ((trueRange.take period).sum)
    let smoothedPlusDM := (plusDM.drop period).foldl wilder ((plusDM.take period).sum)
    let smoothedMinusDM := (minusDM.drop period).foldl wilder ((minusDM.take period).sum)
    let plusDI := (checkedDiv smoothedPlusDM smoothedTR).map (fun r => r * 100)
    let minusDI := (checkedDiv smoothedMinusDM smoothedTR).map (fun r => r * 100)
    let dx :=
      match plusDI, minusDI with
      | some p, some m => (checkedDiv |p - m| (p + m)).map (fun r => r * 100)
      | _, _ => none
    some (dx.map jsToFixed2)


/-- Trading direction. -/
inductive Dir
  | long
  | short
deriving DecidableEq, Repr

/-- The tagged action of a strategy signal. -/
inductive Action
  | stop
  | wait
  | hold
  | exit
  | buy
  | sell
deriving DecidableEq, Repr

/-- A signal returned by the strategy.  The source returns dynamic objects
with optional fields; fields absent from a given JS object keep their default
here and are never read by the simulator on that path.  The source formats
`volatilityPercent` as a 2-decimal string; it is kept as the rounded rational. -/
structure Signal where
  action : Action
  reason : String
  direction : Dir := Dir.long
  price : ℚ := 0
  positionSize : ℚ := 0
  leverage : ℚ := 0
  stopLoss : ℚ := 0
  takeProfit : ℚ := 0
  volatilityPercent : ℚ := 0
  adx : Option (Option ℚ) := none
deriving DecidableEq, Repr

/-- Account state passed to the strategy (src/unnamed/part_001 `createAccount`
also carries `equity` and `positions`, which nothing in the loop reads). -/
structure Account where
  balance : ℚ
deriving DecidableEq, Repr

/-- Backtest configuration (src/unnamed/part_000); `slippagePercentage` is
never read by the simulation loop. -/
structure Config where
  initialBalance : ℚ
  feePercentage : ℚ
  slippagePercentage : ℚ
deriving DecidableEq, Repr

/-- An open position as built by the simulator on `buy`/`sell`. -/
structure Position where
  direction : Dir
  entryPrice : ℚ
  size : ℚ
  margin : ℚ
  leverage : ℚ
  entryTime : ℤ
  entryReason : String
  stopLoss : ℚ
  takeProfit : ℚ
  entryBalance : ℚ
  volatilityPercent : ℚ
  adx : Option (Option ℚ)
deriving DecidableEq, Repr

/-- The position-management section of `analyze` (bob-is-awesome.js lines
101-178), abstracted over the current close, the price-action/trend
predicates and the MACD histogram exactly as the enclosing function binds
them.  `profitTarget` is 0.1 and `stopLoss` is 0.15 (percent). -/
def positionManagement (pos : Position) (close : ℚ)
    (bullishCandle bearishCandle microUptrend microDowntrend : Prop)
    [Decidable bullishCandle] [Decidable bearishCandle]
    [Decidable microUptrend] [Decidable microDowntrend]
    (histogram : ℚ) : Signal :=
  let profitTarget : ℚ := 1/10
  let stopLoss : ℚ := 15/100
  let currentPnL :=
    match pos.direction with
    | Dir.long => (close - pos.entryPrice) / pos.entryPrice * 100
    | Dir.short => (pos.entryPrice - close) / pos.entryPrice * 100
  if profitTarget ≤ currentPnL then
    { action := Action.exit, reason := "Take profit hit", price := close }
  else if currentPnL ≤ -stopLoss then
    { action := Action.exit, reason := "Stop loss hit", price := close }
  else if pos.direction = Dir.long ∧ (bearishCandle ∨ microDowntrend ∨ histogram < 0) then
    { action := Action.exit, reason := "Trend change", price := close }
  else if pos.direction = Dir.long ∧ 1/20 < currentPnL ∧
      pos.entryPrice < close * (9995/10000) then
    { action := Action.exit, reason := "Trailing stop hit", price := close }
  else if pos.direction = Dir.short ∧ (bullishCandle ∨ microUptrend ∨ 0 < histogram) then
    { action := Action.exit, reason := "Trend change", price := close }
  else if pos.direction = Dir.short ∧ 1/20 < currentPnL ∧
      close * (10005/10000) < pos.entryPrice then
    { action := Action.exit, reason := "Trailing stop hit", price := close }
  else
    { action := Action.hold, reason := "Maintaining position" }

/-- The entry section of `analyze` (bob-is-awesome.js lines 180-279):
volatility and trend-strength waits, position sizing, and the long/short
entry criteria, abstracted over the values the enclosing function binds. -/
def entryManagement (accountBalance close : ℚ)
    (bullishCandle bearishCandle momentumUp momentumDown microUptrend microDowntrend : Prop)
    [Decidable bullishCandle] [Decidable bearishCandle]
    [Decidable momentumUp] [Decidable momentumDown]
    [Decidable microUptrend] [Decidable microDowntrend]
    (rsi prevRsi volatilityPercent : ℚ) (adx : Option (Option ℚ))
    (histogram : ℚ) (stoch : StochResult) : Signal :=
  let profitTarget : ℚ := 1/10
  let stopLoss : ℚ := 15/100
  if volatilityPercent < 2/100 then
    { action := Action.wait, reason := "Extremely low volatility" }
  else if adxLt adx 15 ∧ volatilityPercent < 5/100 then
    { action := Action.wait, reason := "Weak trend with insufficient volatility" }
  else
    let riskPercentage : ℚ := 3/10
    let riskAmount := accountBalance * (riskPercentage / 100)
    let stopLossAmount := close * (stopLoss / 100)
    let positionSize0 := riskAmount / stopLossAmount
    let maxPositionValue := accountBalance * (20/100)
    let positionValue := positionSize0 * close
    let positionSize :=
      if maxPositionValue < positionValue then maxPositionValue / close
      else positionSize0
    let leverage : ℚ := 3
    let longSignal := (bullishCandle ∨ momentumUp) ∧
      (microUptrend ∨ 40 < rsi ∨ 0 < histogram ∨ jsLt stoch.d stoch.k)
    let oversoldBounce := (rsi < 40 ∧ prevRsi < rsi) ∧ (bullishCandle ∨ momentumUp)
    let strongTrendUp := adxGt adx 20 ∧ microUptrend
    if (longSignal ∨ oversoldBounce ∨ strongTrendUp) ∧ ¬(adxLt adx 15 ∧ 60 < rsi) then
      { action := Action.buy,
        reason := if strongTrendUp then "Strong uptrend detected"
          else if oversoldBounce then "Oversold bounce" else "Long setup",
        direction := Dir.long,
        price := close,
        positionSize := positionSize,
        leverage := leverage,
        stopLoss := close * (1 - stopLoss/100),
        takeProfit := close * (1 + profitTarget/100),
        volatilityPercent := jsToFixed2 volatilityPercent,
        adx := adx }
    else
      let shortSignal := (bearishCandle ∨ momentumDown) ∧
        (microDowntrend ∨ rsi < 60 ∨ histogram < 0 ∨ jsLt stoch.k stoch.d)
      let overboughtDrop := (60 < rsi ∧ rsi < prevRsi) ∧ (bearishCandle ∨ momentumDown)
      let strongTrendDown := adxGt adx 20 ∧ microDowntrend
      if (shortSignal ∨ overboughtDrop ∨ strongTrendDown) ∧ ¬(adxLt adx 15 ∧ rsi < 40) then
        { action := Action.sell,
          reason := if strongTrendDown then "Strong downtrend detected"
            else if overboughtDrop then "Overbought drop" else "Short setup",
          direction := Dir.short,
          price := close,
          positionSize := positionSize,
          leverage := leverage,
          stopLoss := close * (1 + stopLoss/100),
          takeProfit := close * (1 - profitTarget/100),
          volatilityPercent := jsToFixed2 volatilityPercent,
          adx := adx }
      else
        { action := Action.wait, reason := "Waiting for setup" }

/-- src/src/strategies/bob-is-awesome.js `analyze`: the bankruptcy and
warm-up guards, the indicator bindings, and the dispatch to the
position-management or entry section.

The source also computes `ema8`, `ema13`, `prevEma8`, `prevMacd`, `prevStoch`,
`quickBullishMomentum`, `quickBearishMomentum`, `isBullishEngulfing` and
`isBearishEngulfing`, none of which feed into any returned signal; those dead
bindings are omitted.  `candles.length ≥ 15` holds past the data guard, so the
`Option.getD 0` unwrappings of EMA/MACD are never the `none` case.  The JS
`account.balance || 1000` maps a balance of exactly 0 (falsy) to 1000. -/
def analyze (candles : List Candle) (currentPosition : Option Position)
    (account : Account) (config : Config) : Signal :=
  let accountBalance := if account.balance = 0 then 1000 else account.balance
  if accountBalance ≤ 0 then
    { action := Action.stop, reason := "Account bankrupt - balance is zero or negative" }
  else if candles.length < 15 then
    { action := Action.wait, reason := "Not enough data" }
  else
    let currentCandle := candles.getLastD default
    let previousCandle := (candles.dropLast).getLastD default
    let ema5 := (calculateEMA candles 5).getD 0
    let prevEma5 := (calculateEMA candles.dropLast 5).getD 0
    let rsi := calculateRSI candles 14
    let prevRsi := calculateRSI candles.dropLast 14
    let atr := calculateATR candles 14
    let volatilityPercent := if 0 < currentCandle.close then atr / currentCandle.close * 100 else 0
    let adx := calculateADX candles 14
    let macd := (calculateMACD candles 12 26 9).getD default
    let stoch := calculateStochastic candles 14 1 3
    match currentPosition with
    | some pos =>
      positionManagement pos currentCandle.close
        (currentCandle.opn < currentCandle.close)
        (currentCandle.close < currentCandle.opn)
        (prevEma5 < ema5) (ema5 < prevEma5) macd.histogram
    | none =>
      entryManagement accountBalance currentCandle.close
        (currentCandle.opn < currentCandle.close)
        (currentCandle.close < currentCandle.opn)
        (previousCandle.close < currentCandle.close)
        (currentCandle.close < previousCandle.close)
        (prevEma5 < ema5) (ema5 < prevEma5)
        rsi prevRsi volatilityPercent adx macd.histogram stoch

/-- A closed trade: the spread position fields plus the exit fields, as
pushed onto `tradeHistory` by src/src/simulator.js. -/
structure Trade where
  position : Position
  exitPrice : ℚ
  exitTime : ℤ
  exitReason : String
  profit : ℚ
  profitPercentage : ℚ
  fees : ℚ
deriving DecidableEq, Repr

/-- An entry of the simulator ledger (`tradeHistory`): either a closed trade
or the halt marker pushed when the strategy returns the stop action. -/
inductive LedgerEntry
  | trade (t : Trade)
  | halt (timestamp : ℤ) (reason : String) (balance : ℚ)
deriving DecidableEq, Repr

/-- The mutable state of the simulation loop. -/
structure SimState where
  balance : ℚ
  position : Option Position
  ledger : List LedgerEntry
deriving DecidableEq, Repr

/-- Fee on a margin amount: `margin * (config.feePercentage / 100)`.  The
source uses this same formula for both the entry fee and the exit fee. -/
def entryFeeAmt (config : Config) (margin : ℚ) : ℚ :=
  margin * (config.feePercentage / 100)

/-- The trade record built when position `p` is closed at the close of
`candle` with the given exit reason (src/src/simulator.js, the identical
block repeated at the engine-exit, stop-loss and take-profit sites). -/
def closedTrade (config : Config) (candle : Candle) (p : Position)
    (reason : String) : Trade :=
  let pnl :=
    match p.direction with
    | Dir.long => (candle.close - p.entryPrice) * p.size
    | Dir.short => (p.entryPrice - candle.close) * p.size
  let exitFees := entryFeeAmt config p.margin
  let totalPnl := pnl - exitFees
  { position := p, exitPrice := candle.close, exitTime := candle.time,
    exitReason := reason, profit := totalPnl,
    profitPercentage := totalPnl / p.margin * 100, fees := exitFees }

/-- Close position `p`: append the trade, return margin plus net P&L to the
balance, clear the position, continue the loop. -/
def closePos (config : Config) (candle : Candle) (p : Position)
    (reason : String) (st : SimState) : SimState × Bool :=
  let t := closedTrade config candle p reason
  ({ balance := st.balance + p.margin + t.profit, position := none,
     ledger := st.ledger ++ [LedgerEntry.trade t] }, true)

/-- Open a position from an enter signal: leveraged size, margin, entry fee;
skip as a no-op when margin plus fee exceeds the balance (the JS `continue`). -/
def openPos (config : Config) (candle : Candle) (signal : Signal)
    (st : SimState) : SimState × Bool :=
  let positionSize := signal.positionSize * signal.leverage
  let margin := positionSize * candle.close / signal.leverage
  let fees := entryFeeAmt config margin
  if margin + fees > st.balance then (st, true)
  else
    ({ balance := st.balance - (margin + fees),
       position := some
         { direction := signal.direction, entryPrice := candle.close,
           size := positionSize, margin := margin, leverage := signal.leverage,
           entryTime := candle.time, entryReason := signal.reason,
           stopLoss := signal.stopLoss, takeProfit := signal.takeProfit,
           entryBalance := st.balance,
           volatilityPercent := signal.volatilityPercent, adx := signal.adx },
       ledger := st.ledger }, true)

/-- The signal-dispatch chain of one loop iteration of src/src/simulator.js
`run` (lines 96-357).  The returned flag is false exactly when the loop
breaks.  The if/else-if chain is reproduced exactly: the price-based
stop-loss/take-profit monitoring runs only in the final `else if
(currentPosition)` arm, i.e. only when the signal was none of
stop/buy-with-no-position/sell-with-no-position/exit-with-position. -/
def applySignal (config : Config) (candle : Candle) (signal : Signal)
    (st : SimState) : SimState × Bool :=
  if signal.action = Action.stop then
    ({ st with ledger := st.ledger ++ [LedgerEntry.halt candle.time signal.reason st.balance] },
     false)
  else if signal.action = Action.buy ∧ st.position = none then
    openPos config candle signal st
  else if signal.action = Action.sell ∧ st.position = none then
    openPos config candle signal st
  else
    match st.position with
    | none => (st, true)
    | some p =>
      if signal.action = Action.exit then
        closePos config candle p signal.reason st
      else
        match p.direction with
        | Dir.long =>
          if candle.close ≤ p.stopLoss then
            closePos config candle p "Stop loss triggered" st
          else if p.takeProfit ≤ candle.close then
            closePos config candle p "Take profit triggered" st
          else (st, true)
        | Dir.short =>
          if p.stopLoss ≤ candle.close then
            closePos config candle p "Stop loss triggered" st
          else if candle.close ≤ p.takeProfit then
            closePos config candle p "Take profit triggered" st
          else (st, true)

/-- One iteration of the loop body at index `i`: the low-balance guards, the
strategy call on the causal slice `priceData.slice(0, i + 1)`, and the signal
dispatch.  The guard structure mirrors the source: the first branch (balance
below 2 with no open position) only logs and falls through; the `break` fires
only when the balance is below 0.5 and a position is open. -/
def simStep (config : Config) (priceData : List Candle) (i : ℕ)
    (st : SimState) : SimState × Bool :=
  let candles := priceData.take (i + 1)
  let currentCandle := priceData.getD i default
  if st.balance < 2 ∧ st.position = none then
    applySignal config currentCandle
      (analyze candles st.position { balance := st.balance } config) st
  else if st.balance < 1/2 then (st, false)
  else
    applySignal config currentCandle
      (analyze candles st.position { balance := st.balance } config) st

/-- The loop `for (let i = 50; i < priceData.length; i++)`, driven by an
explicit fuel that bounds the remaining iterations. -/
def runAux (config : Config) (priceData : List Candle) :
    ℕ → ℕ → SimState → SimState
  | 0, _, st => st
  | fuel + 1, i, st =>
    if i < priceData.length then
      match simStep config priceData i st with
      | (st2, true) => runAux config priceData fuel (i + 1) st2
      | (st2, false) => st2
    else st

/-- The full simulation loop from index 50 on the initial account. -/
def simRun (config : Config) (priceData : List Candle) : SimState :=
  runAux config priceData priceData.length 50
    { balance := config.initialBalance, position := none, ledger := [] }

/-- The profit of a ledger entry as read by the stats filters; a halt entry
has no `profit` field (JS `undefined`), so both `profit > 0` and
`profit <= 0` are false for it. -/
def entryProfit : LedgerEntry → Option ℚ
  | LedgerEntry.trade t => some t.profit
  | LedgerEntry.halt _ _ _ => none

/-- Aggregate statistics (src/src/simulator.js lines 360-377).
`profitFactor` is `none` for the JS `Infinity` case; `pnlPercentage` is
`none` when `initialBalance` is zero (non-finite in JS). -/
structure SimulationStats where
  initialBalance : ℚ
  finalBalance : ℚ
  totalTrades : ℕ
  winningTrades : ℕ
  losingTrades : ℕ
  winRate : ℚ
  profitFactor : Option ℚ
  pnl : ℚ
  pnlPercentage : Option ℚ
deriving DecidableEq, Repr

/-- Compute the final statistics from the loop state. -/
def computeStats (config : Config) (st : SimState) : SimulationStats :=
  let winning := st.ledger.filter (fun e => decide (jsLt (some 0) (entryProfit e)))
  let losing := st.ledger.filter (fun e => decide (jsLe (entryProfit e) (some 0)))
  let totalProfit := (winning.map (fun e => (entryProfit e).getD 0)).sum
  let totalLoss := |(losing.map (fun e => (entryProfit e).getD 0)).sum|
  { initialBalance := config.initialBalance,
    finalBalance := st.balance,
    totalTrades := st.ledger.length,
    winningTrades := winning.length,
    losingTrades := losing.length,
    winRate := if 0 < st.ledger.length then ((winning.length : ℚ) / st.ledger.length) * 100 else 0,
    profitFactor :=
      if 0 < totalLoss then some (totalProfit / totalLoss)
      else if 0 < totalProfit then none
      else some 0,
    pnl := st.balance - config.initialBalance,
    pnlPercentage := (checkedDiv st.balance config.initialBalance).map (fun r => (r - 1) * 100) }

/-- The missing-source-data failure of src/src/simulator.js `run`. -/
inductive SimError
  | missingData
deriving DecidableEq, Repr

/-- src/src/simulator.js `run`, given the price data ultimately available
from the storage collaborator (database fetch plus CSV import fallback,
which are external I/O): an empty history throws the missing-data error
before the loop; otherwise the loop runs and the stats and ledger are
returned. -/
def runSimulation (config : Config) (priceData : List Candle) :
    Except SimError (SimulationStats × List LedgerEntry) :=
  if priceData.isEmpty then Except.error SimError.missingData
  else
    let st := simRun config priceData
    Except.ok (computeStats config st, st.ledger)

/-- Sum of the `profit` fields over the closed trades of a ledger (halt
markers carry no profit). -/
def tradeProfitSum : List LedgerEntry → ℚ
  | [] => 0
  | LedgerEntry.trade t :: rest => t.profit + tradeProfitSum rest
  | LedgerEntry.halt _ _ _ :: rest => tradeProfitSum rest

/-- Sum of the entry fees paid for the closed trades of a ledger. -/
def tradeEntryFeeSum (config : Config) : List LedgerEntry → ℚ
  | [] => 0
  | LedgerEntry.trade t :: rest =>
    entryFeeAmt config t.position.margin + tradeEntryFeeSum config rest
  | LedgerEntry.halt _ _ _ :: rest => tradeEntryFeeSum config rest

/-- The funds tied up by an open position: its margin plus the entry fee
that was deducted when it opened. -/
def heldFunds (config : Config) : Option Position → ℚ
  | none => 0
  | some p => p.margin + entryFeeAmt config p.margin

/-- The accounting invariant of the simulation loop: cash plus the funds
held by any open position equals the initial balance plus recorded trade
profits minus recorded entry fees; and, while a position is open, the cash
balance equals the balance recorded at entry minus (margin + entry fee). -/
def balanceLedgerInvariant (config : Config) (st : SimState) : Prop :=
  st.balance + heldFunds config st.position =
    config.initialBalance + tradeProfitSum st.ledger - tradeEntryFeeSum config st.ledger
  ∧ ∀ p, st.position = some p →
      st.balance = p.entryBalance - (p.margin + entryFeeAmt config p.margin)

/-- A flat bar: open = high = low = close = `q`. -/
def mkFlat (q : ℚ) : Candle :=
  { time := 0, opn := q, high := q, low := q, close := q }

/-- Twenty flat bars at 100, the flat-market scenario of the spec. -/
def flat20Candles : List Candle := List.replicate 20 (mkFlat 100)

/-- Sixteen flat bars at 100: the shortest flat history that passes both the
Stochastic period guard and the ADX `period + 2` guard. -/
def flat16Candles : List Candle := List.replicate 16 (mkFlat 100)

/-- Twenty flat bars at 200. -/
def flat200Candles : List Candle := List.replicate 20 (mkFlat 200)

/-- A strictly rising 51-bar history: bar `i` opens at `99 + i` and closes at
`100 + i`, with high = close and low = open. -/
def risingCandles : List Candle :=
  (List.range 51).map (fun i =>
    { time := (i : ℤ), opn := 99 + (i : ℚ), high := 100 + (i : ℚ),
      low := 99 + (i : ℚ), close := 100 + (i : ℚ) })

/-- A reference configuration: the defaults of the configuration utility
(initial balance 10000, fee 0.075%, slippage 0.05%). -/
def cfg0 : Config :=
  { initialBalance := 10000, feePercentage := 3/40, slippagePercentage := 1/20 }

/-- A single flat candle at 100. -/
def candle100 : Candle := mkFlat 100

/-- A long position used in the stop-loss scenario: entered at 100.05 with
the stored stop-loss level 100.02, so that a flat bar at 100 sits at or
below the stop while the strategy itself still holds. -/
def posStopW : Position :=
  { direction := Dir.long, entryPrice := 2001/20, size := 1, margin := 10,
    leverage := 3, entryTime := 0, entryReason := "Long setup",
    stopLoss := 5001/50, takeProfit := 101, entryBalance := 10000,
    volatilityPercent := 1, adx := none }

/-- The simulator state holding `posStopW` with a healthy balance. -/
def stStopW : SimState := { balance := 10000, position := some posStopW, ledger := [] }

/-- An enter signal whose margin plus fee exceeds any small balance. -/
def sigPoorW : Signal :=
  { action := Action.buy, reason := "Long setup", direction := Dir.long,
    price := 100, positionSize := 100, leverage := 3, stopLoss := 99,
    takeProfit := 101, volatilityPercent := 1, adx := none }

/-- A nearly empty account for the insufficient-funds scenario. -/
def stPoorW : SimState := { balance := 1, position := none, ledger := [] }

/-! ## Helper lemmas -/

/-- The position-management section never returns an enter action. -/
theorem pm_no_entry (pos : Position) (close : ℚ)
    (b1 b2 b3 b4 : Prop) [Decidable b1] [Decidable b2] [Decidable b3] [Decidable b4]
    (histogram : ℚ) :
    (positionManagement pos close b1 b2 b3 b4 histogram).action ≠ Action.buy ∧
    (positionManagement pos close b1 b2 b3 b4 histogram).action ≠ Action.sell := by
  refine ⟨?_, ?_⟩ <;>
  · unfold positionManagement
    dsimp only
    split_ifs <;> exact fun h => nomatch h

/-- With an open position the strategy returns only stop/wait/exit/hold,
never an enter action. -/
theorem analyze_open_no_entry (candles : List Candle) (p : Position)
    (acct : Account) (cfg : Config) :
    (analyze candles (some p) acct cfg).action ≠ Action.buy ∧
    (analyze candles (some p) acct cfg).action ≠ Action.sell := by
  unfold analyze
  dsimp only
  split_ifs <;> first
    | exact ⟨by decide, by decide⟩
    | apply pm_no_entry

/-! ## C1 -/

set_option maxRecDepth 100000 in
/-- C1: at `Account.balance = 0` the strategy does NOT return the stop
action: the JS `account.balance || 1000` turns the falsy balance 0 into
1000, so the bankruptcy guard is skipped and the flat-market history yields
a wait signal, while any strictly negative balance does stop.  This
contradicts the comment in the source ("stop simulation if balance <= 0")
and the spec. -/
theorem c1_balance_zero_not_halted :
    (analyze flat20Candles none { balance := 0 } cfg0).action = Action.wait ∧
    (analyze flat20Candles none { balance := 0 } cfg0).action ≠ Action.stop ∧
    (analyze flat20Candles none { balance := -1 } cfg0).action = Action.stop := by
  decide

/-! ## C5 -/

set_option maxRecDepth 100000 in
/-- C5 counterexample: on the 20-bar flat history RSI is exactly 100, far
from the claimed value of approximately 50; every change is zero, so the
zero-average-loss branch fires. -/
theorem c5_counterexample :
    calculateRSI flat20Candles 14 = 100 ∧ ¬ calculateRSI flat20Candles 14 < 60 := by
  decide

set_option maxRecDepth 100000 in
/-- C5 amended: on 20 flat bars at 100 the RSI evaluates to 100 (the
zero-average-loss fallback), the ATR evaluates to exactly 0, and the
strategy with no open position emits the wait action (via the
extremely-low-volatility guard). -/
theorem c5_flat_market :
    calculateRSI flat20Candles 14 = 100 ∧
    calculateATR flat20Candles 14 = 0 ∧
    (analyze flat20Candles none { balance := 10000 } cfg0) =
      { action := Action.wait, reason := "Extremely low volatility" } := by
  decide

/-! ## C7 -/

set_option maxRecDepth 100000 in
/-- C7 counterexample: 16 flat bars pass both the Stochastic length guard
(16 ≥ 14) and the ADX guard (16 ≥ 14 + 2), yet Stochastic %K is non-numeric
(the `highestHigh - lowestLow` denominator is zero) and ADX is NaN (the
`smoothedTR` denominator is zero): the divisions are not covered by any
fallback branch. -/
theorem c7_counterexample :
    (calculateStochastic flat16Candles 14 1 3).k = none ∧
    calculateADX flat16Candles 14 = some none := by
  decide

set_option maxRecDepth 100000 in
/-- C7 amended: the zero-denominator cases of Stochastic and ADX are NOT
guarded: on a flat window that passes the length guards both produce
non-numeric results (NaN/undefined), while RSI is guarded by its
zero-average-loss branch and stays numeric on the same data. -/
theorem c7_unguarded_divisions :
    calculateStochastic flat200Candles 14 1 3 = { k := none, d := none } ∧
    calculateADX flat200Candles 14 = some none ∧
    calculateRSI flat200Candles 14 = 100 := by
  decide

/-! ## C6 -/

/-- C6 counterexample: on the empty candle array the SMA, EMA and Bollinger
fallback branches read the last element of an empty array and throw
(modelled by `none`), so "including the empty sequence ... never throws"
fails. -/
theorem c6_counterexample :
    calculateSMA ([] : List Candle) 20 = none ∧
    calculateEMA ([] : List Candle) 20 = none ∧
    calculateBollingerBands id ([] : List Candle) 20 2 = none := by
  refine ⟨rfl, rfl, rfl⟩

/-- C6 amended: for every NONEMPTY bar sequence shorter than the indicator
minimum period the documented fallbacks hold (SMA/EMA/Bollinger yield the
latest close, RSI 50, ATR 0, Stochastic {50, 50}, ADX null) and no access
faults; on the empty sequence the SMA/EMA/Bollinger fallback branches throw. -/
theorem c6_short_history_fallbacks (sqrtFn : ℚ → ℚ) (cs : List Candle) (p : ℕ)
    (hne : cs ≠ []) :
    (cs.length < p →
      calculateSMA cs p = some ((cs.getLast hne).close) ∧
      calculateEMA cs p = some ((cs.getLast hne).close) ∧
      calculateBollingerBands sqrtFn cs p 2 =
        some ⟨(cs.getLast hne).close, (cs.getLast hne).close, (cs.getLast hne).close⟩) ∧
    (cs.length < p + 1 → calculateRSI cs p = 50 ∧ calculateATR cs p = 0) ∧
    (cs.length < p → calculateStochastic cs p 1 3 = { k := some 50, d := some 50 }) ∧
    (cs.length < p + 2 → calculateADX cs p = none) := by
  have hlast : cs.getLast? = some (cs.getLast hne) := List.getLast?_eq_getLast cs hne
  refine ⟨fun h => ?_, fun h => ?_, fun h => ?_, fun h => ?_⟩
  · refine ⟨?_, ?_, ?_⟩
    · unfold calculateSMA lastClose
      rw [if_pos h, hlast]
      rfl
    · unfold calculateEMA lastClose
      rw [if_pos h, hlast]
      rfl
    · unfold calculateBollingerBands
      rw [if_pos h, hlast]
      rfl
  · exact ⟨by unfold calculateRSI; rw [if_pos h], by unfold calculateATR; rw [if_pos h]⟩
  · unfold calculateStochastic
    rw [if_pos h]
  · unfold calculateADX
    rw [if_pos h]

/-- C6 witness: the amended fallback theorem evaluated on a single flat
candle with period 20. -/
theorem c6_witness :
    calculateSMA [candle100] 20 = some 100 ∧
    calculateRSI [candle100] 20 = 50 ∧
    calculateStochastic [candle100] 20 1 3 = { k := some 50, d := some 50 } ∧
    calculateADX [candle100] 20 = none := by
  have h := c6_short_history_fallbacks id [candle100] 20 (by decide)
  exact ⟨by simpa using (h.1 (by decide)).1, (h.2.1 (by decide)).1,
    h.2.2.1 (by decide), h.2.2.2 (by decide)⟩

/-! ## C10 -/

/-- A 3-bar smoothing pass on an input of length at most 2 produces the
empty list: the JS loop index starts at 2. -/
theorem smoothPass_short (xs : List (Option ℚ)) (h : xs.length ≤ 2) :
    smoothPass xs = [] := by
  unfold smoothPass
  have h2 : xs.length - 2 = 0 := by omega
  rw [h2]
  rfl

/-- C10: with the default smoothing parameters (smoothK = 1, smoothD = 3),
any candle array whose length is `period` or `period + 1` produces one or
two raw %K values, the 3-bar smoothing pass empties the series, and both
`k` and `d` are the JS `undefined` (`none`) rather than numbers — the
{50, 50} fallback covers only lengths below `period`. -/
theorem c10_stochastic_undefined (p : ℕ) (cs : List Candle)
    (h1 : 1 ≤ p) (h2 : p ≤ cs.length) (h3 : cs.length ≤ p + 1) :
    calculateStochastic cs p 1 3 = { k := none, d := none } := by
  unfold calculateStochastic
  rw [if_neg (by omega)]
  dsimp only
  rw [Function.iterate_one]
  rw [smoothPass_short _ (by simp [List.length_range']; omega)]
  rfl

/-- C10 witness: fourteen flat candles (exactly the default period) yield
the undefined pair. -/
theorem c10_witness :
    calculateStochastic (List.replicate 14 (mkFlat 100)) 14 1 3 = { k := none, d := none } := by
  exact c10_stochastic_undefined 14 (List.replicate 14 (mkFlat 100))
    (by decide) (by decide) (by decide)

/-! ## C9 -/

/-- C9 counterexample: on the empty price history the simulation throws the
missing-data error instead of returning stats with zero trades. -/
theorem c9_counterexample :
    runSimulation cfg0 ([] : List Candle) = Except.error SimError.missingData := by
  rfl

/-- The loop body never runs once the index is past the end of the data. -/
theorem runAux_past_end (config : Config) (priceData : List Candle)
    (fuel i : ℕ) (st : SimState) (h : priceData.length ≤ i) :
    runAux config priceData fuel i st = st := by
  cases fuel with
  | zero => rfl
  | succ n =>
    unfold runAux
    rw [if_neg (by omega)]

/-- C9 amended: the loop starts at bar index 50, so every NONEMPTY price
history of at most 50 bars runs zero iterations: no position is opened, the
ledger stays empty and the returned stats show zero trades and an unchanged
balance.  (The empty history instead throws the missing-data error.) -/
theorem c9_warmup_window (config : Config) (pd : List Candle)
    (h1 : pd ≠ []) (h2 : pd.length ≤ 50) :
    simRun config pd = { balance := config.initialBalance, position := none, ledger := [] } ∧
    ∃ s, runSimulation config pd = Except.ok (s, []) ∧
      s.totalTrades = 0 ∧ s.finalBalance = config.initialBalance := by
  have hrun : simRun config pd =
      { balance := config.initialBalance, position := none, ledger := [] } :=
    runAux_past_end config pd pd.length 50 _ (by omega)
  refine ⟨hrun, computeStats config (simRun config pd), ?_, ?_, ?_⟩
  · unfold runSimulation
    rw [if_neg (by simpa [List.isEmpty_iff] using h1)]
    rw [hrun]
    try rfl
  · rw [hrun]
    try rfl
  · rw [hrun]
    try rfl

/-- C9 witness: a single flat candle is a nonempty history of at most 50
bars. -/
theorem c9_witness :
    simRun cfg0 [candle100] = { balance := 10000, position := none, ledger := [] } ∧
    ∃ s, runSimulation cfg0 [candle100] = Except.ok (s, []) ∧
      s.totalTrades = 0 ∧ s.finalBalance = 10000 := by
  exact c9_warmup_window cfg0 [candle100] (by decide) (by decide)

/-! ## C8 -/

/-- C8: an enter signal whose required margin plus entry fee exceeds the
balance is skipped as a pure no-op: the state is returned unchanged and the
loop continues (flag true) — no balance change, no position, no ledger
entry, not a fatal error. -/
theorem c8_insufficient_funds_noop (config : Config) (candle : Candle)
    (sig : Signal) (st : SimState)
    (ha : sig.action = Action.buy ∨ sig.action = Action.sell)
    (hp : st.position = none)
    (hb : sig.positionSize * sig.leverage * candle.close / sig.leverage +
      entryFeeAmt config (sig.positionSize * sig.leverage * candle.close / sig.leverage) >
        st.balance) :
    applySignal config candle sig st = (st, true) := by
  have hopen : openPos config candle sig st = (st, true) := by
    unfold openPos
    rw [if_pos hb]
  rcases ha with hbuy | hsell
  · unfold applySignal
    rw [if_neg (by rw [hbuy]; decide), if_pos ⟨hbuy, hp⟩]
    exact hopen
  · unfold applySignal
    rw [if_neg (by rw [hsell]; decide),
      if_neg (fun hc => by rw [hsell] at hc; exact nomatch hc.1),
      if_pos ⟨hsell, hp⟩]
    exact hopen

/-- C8 witness: a buy of 100 units at price 100 with leverage 3 requires a
margin of 10000 plus fee 7.5, far above the balance of 1; the step is a
no-op. -/
theorem c8_witness :
    sigPoorW.positionSize * sigPoorW.leverage * candle100.close / sigPoorW.leverage +
      entryFeeAmt cfg0 (sigPoorW.positionSize * sigPoorW.leverage * candle100.close / sigPoorW.leverage) >
        stPoorW.balance ∧
    applySignal cfg0 candle100 sigPoorW stPoorW = (stPoorW, true) := by
  refine ⟨by decide, ?_⟩
  exact c8_insufficient_funds_noop cfg0 candle100 sigPoorW stPoorW (Or.inl rfl) rfl (by decide)

/-! ## C2 -/

/-- C2: with a position open, (i) an explicit strategy exit action takes the
exit branch of the dispatch chain, closing with the strategy reason — the
price-based stop/target monitoring is not consulted; (ii) when the strategy
returns neither exit nor stop (with a position open it can only return hold
or wait, never buy/sell), a long position whose bar close is at or below the
stored stop-loss is closed by the price monitor with reason "Stop loss
triggered", and the recorded profit is negative whenever the position has
positive size, a stop below the entry, and nonnegative margin and fee
percentage. -/
theorem c2_exit_priority_and_stop_loss (config : Config) (candles : List Candle)
    (acct : Account) (candle : Candle) (st : SimState) (p : Position)
    (hpos : st.position = some p) :
    ((analyze candles (some p) acct config).action = Action.exit →
      applySignal config candle (analyze candles (some p) acct config) st =
        closePos config candle p (analyze candles (some p) acct config).reason st) ∧
    ((analyze candles (some p) acct config).action ≠ Action.exit →
      (analyze candles (some p) acct config).action ≠ Action.stop →
      p.direction = Dir.long → candle.close ≤ p.stopLoss →
      applySignal config candle (analyze candles (some p) acct config) st =
        closePos config candle p "Stop loss triggered" st ∧
      (0 < p.size → p.stopLoss < p.entryPrice → 0 ≤ p.margin → 0 ≤ config.feePercentage →
        (closedTrade config candle p "Stop loss triggered").profit < 0)) := by
  have hnb := (analyze_open_no_entry candles p acct config).1
  have hns := (analyze_open_no_entry candles p acct config).2
  constructor
  · intro hexit
    unfold applySignal
    rw [if_neg (by rw [hexit]; decide),
      if_neg (fun hc => by rw [hexit] at hc; exact nomatch hc.1),
      if_neg (fun hc => by rw [hexit] at hc; exact nomatch hc.1),
      hpos]
    dsimp only
    rw [if_pos hexit]
  · intro hne hnstop hdir hclose
    constructor
    · unfold applySignal
      rw [if_neg hnstop,
        if_neg (fun hc => hnb hc.1),
        if_neg (fun hc => hns hc.1),
        hpos]
      dsimp only
      rw [if_neg hne, hdir]
      dsimp only
      rw [if_pos hclose]
    · intro hsize hsl hm hf
      unfold closedTrade entryFeeAmt
      rw [hdir]
      dsimp only
      have h1 : (candle.close - p.entryPrice) * p.size < 0 :=
        mul_neg_of_neg_of_pos (by linarith) hsize
      have h2 : 0 ≤ p.margin * (config.feePercentage / 100) :=
        mul_nonneg hm (by positivity)
      linarith

set_option maxRecDepth 400000 in
/-- C2 witness: on the flat history with the long position `posStopW`
(entry 100.05, stop 100.02) the strategy holds, the bar close 100 breaches
the stop, the price monitor closes the trade with "Stop loss triggered" and
the profit is negative. -/
theorem c2_witness :
    applySignal cfg0 candle100
        (analyze flat20Candles (some posStopW) { balance := 10000 } cfg0) stStopW =
      closePos cfg0 candle100 posStopW "Stop loss triggered" stStopW ∧
    (closedTrade cfg0 candle100 posStopW "Stop loss triggered").profit < 0 := by
  have h := (c2_exit_priority_and_stop_loss cfg0 flat20Candles { balance := 10000 }
    candle100 stStopW posStopW rfl).2 (by decide) (by decide) rfl (by decide)
  exact ⟨h.1, h.2 (by decide) (by decide) (by decide) (by decide)⟩

/-! ## C4 -/

/-- The sum of a list all of whose elements are `q` is `length * q`. -/
theorem sum_of_const (xs : List ℚ) (q : ℚ) (h : ∀ x ∈ xs, x = q) :
    xs.sum = xs.length * q := by
  induction xs with
  | nil => simp
  | cons a t ih =>
    have ha : a = q := h a (by simp)
    have ht : t.sum = t.length * q := ih (fun x hx => h x (by simp [hx]))
    simp [ha, ht]
    ring

/-- The EMA fold fixes its seed when every incoming close equals the seed. -/
theorem foldl_ema_const (m q : ℚ) (xs : List ℚ) (h : ∀ x ∈ xs, x = q) :
    xs.foldl (fun ema c => (c - ema) * m + ema) q = q := by
  induction xs with
  | nil => rfl
  | cons a t ih =>
    have ha : a = q := h a (by simp)
    have hstep : (a - q) * m + q = q := by rw [ha]; ring
    simpa [hstep] using ih (fun x hx => h x (by simp [hx]))

/-- The EMA of a nonempty history whose closes are all `q` is `q`, for any
positive period: both the insufficient-data fallback (the latest close) and
the SMA-seeded recurrence are fixed at `q`. -/
theorem calculateEMA_const (l : List Candle) (q : ℚ) (p : ℕ) (hp : 1 ≤ p)
    (hne : l ≠ []) (hall : ∀ c ∈ l, c.close = q) :
    calculateEMA l p = some q := by
  unfold calculateEMA
  split
  · rw [lastClose, List.getLast?_eq_getLast l hne]
    simp [hall (l.getLast hne) (List.getLast_mem hne)]
  · rename_i hlen
    have hple : p ≤ l.length := by omega
    have hclo : ∀ x ∈ l.map Candle.close, x = q := by
      intro x hx
      obtain ⟨c, hc, rfl⟩ := List.mem_map.mp hx
      exact hall c hc
    have hwin : ∀ x ∈ (l.map Candle.close).drop (l.length - p), x = q :=
      fun x hx => hclo x (List.mem_of_mem_drop hx)
    have htail : ∀ x ∈ (l.map Candle.close).drop (l.length - p + 1), x = q :=
      fun x hx => hclo x (List.mem_of_mem_drop hx)
    have hwlen : ((l.map Candle.close).drop (l.length - p)).length = p := by
      simp [List.length_drop]
      omega
    have hsma : ((l.map Candle.close).drop (l.length - p)).sum / (p : ℚ) = q := by
      rw [sum_of_const _ q hwin, hwlen]
      have hpq : (p : ℚ) ≠ 0 := by
        exact_mod_cast by omega
      field_simp
    dsimp only
    rw [List.length_map] at *
    rw [hsma]
    rw [foldl_ema_const _ q _ htail]

/-- C4: for every nonempty candle array with the default periods, MACD
returns a record whose signal line equals its MACD line and whose histogram
is exactly zero: the synthetic signal history is the constant
`fastEMA - slowEMA`, and the EMA of a constant series is that constant.
Consequently the strategy conditions `macd.histogram > 0` and
`macd.histogram < 0` are false on every input. -/
theorem c4_macd_signal_equals_line (candles : List Candle) (h : candles ≠ []) :
    ∃ q : ℚ, calculateMACD candles 12 26 9 =
      some { macdLine := q, signalLine := q, histogram := 0 } ∧
      ¬ (0:ℚ) < (0:ℚ) := by
  match candles, h with
  | c :: cs, _ =>
    refine ⟨(calculateEMA (c :: cs) 12).getD 0 - (calculateEMA (c :: cs) 26).getD 0, ?_, by simp⟩
    unfold calculateMACD
    dsimp only
    set q := (calculateEMA (c :: cs) 12).getD 0 - (calculateEMA (c :: cs) 26).getD 0 with hq
    have hdropne : ((c :: cs).drop ((c :: cs).length - 9)) ≠ [] := by
      have : (c :: cs).length - 9 < (c :: cs).length := by
        simp
        omega
      simpa [List.drop_eq_nil_iff] using by omega
    have hmapne : (((c :: cs).drop ((c :: cs).length - 9)).map (fun _ => mkCloseOnly q)) ≠ [] := by
      simpa using hdropne
    have hconst : ∀ x ∈ ((c :: cs).drop ((c :: cs).length - 9)).map (fun _ => mkCloseOnly q),
        x.close = q := by
      intro x hx
      obtain ⟨y, hy, rfl⟩ := List.mem_map.mp hx
      rfl
    rw [calculateEMA_const _ q 9 (by omega) hmapne hconst]
    simp

/-- C4 witness: on a single flat candle both EMAs fall back to the close,
the MACD line is 0, and the signal line equals it. -/
theorem c4_witness :
    ∃ q : ℚ, calculateMACD [candle100] 12 26 9 =
      some { macdLine := q, signalLine := q, histogram := 0 } ∧
      ¬ (0:ℚ) < (0:ℚ) := by
  exact c4_macd_signal_equals_line [candle100] (by decide)

/-! ## C3 -/

/-- Trade-profit sums split over append. -/
theorem tradeProfitSum_append (l1 l2 : List LedgerEntry) :
    tradeProfitSum (l1 ++ l2) = tradeProfitSum l1 + tradeProfitSum l2 := by
  induction l1 with
  | nil => simp [tradeProfitSum]
  | cons e t ih =>
    cases e <;> simp [tradeProfitSum, ih] <;> ring

/-- Entry-fee sums split over append. -/
theorem tradeEntryFeeSum_append (config : Config) (l1 l2 : List LedgerEntry) :
    tradeEntryFeeSum config (l1 ++ l2) =
      tradeEntryFeeSum config l1 + tradeEntryFeeSum config l2 := by
  induction l1 with
  | nil => simp [tradeEntryFeeSum]
  | cons e t ih =>
    cases e <;> simp [tradeEntryFeeSum, ih] <;> ring

/-- Closing a position preserves the accounting invariant. -/
theorem closePos_invariant (config : Config) (candle : Candle) (p : Position)
    (reason : String) (st : SimState) (hp : st.position = some p)
    (h : balanceLedgerInvariant config st) :
    balanceLedgerInvariant config (closePos config candle p reason st).1 := by
  obtain ⟨h1, h2⟩ := h
  rw [hp] at h1
  unfold balanceLedgerInvariant
  unfold closePos
  dsimp only
  constructor
  · rw [tradeProfitSum_append, tradeEntryFeeSum_append]
    dsimp [heldFunds] at h1 ⊢
    simp only [tradeProfitSum, tradeEntryFeeSum]
    have ht : (closedTrade config candle p reason).position = p := rfl
    rw [ht]
    linarith
  · intro p2 hp2
    exact absurd hp2 (by simp)

/-- Opening a position (or skipping it for insufficient funds) preserves the
accounting invariant. -/
theorem openPos_invariant (config : Config) (candle : Candle) (sig : Signal)
    (st : SimState) (hp : st.position = none)
    (h : balanceLedgerInvariant config st) :
    balanceLedgerInvariant config (openPos config candle sig st).1 := by
  obtain ⟨h1, h2⟩ := h
  rw [hp] at h1
  unfold openPos
  dsimp only
  split
  · exact ⟨by rw [hp]; exact h1, h2⟩
  · unfold balanceLedgerInvariant
    dsimp only
    constructor
    · dsimp [heldFunds] at h1 ⊢
      unfold entryFeeAmt at *
      linarith
    · intro p2 hp2
      injection hp2 with h3
      subst h3
      dsimp only

/-- Dispatching one signal preserves the accounting invariant. -/
theorem applySignal_invariant (config : Config) (candle : Candle) (sig : Signal)
    (st : SimState) (h : balanceLedgerInvariant config st) :
    balanceLedgerInvariant config (applySignal config candle sig st).1 := by
  obtain ⟨h1, h2⟩ := h
  unfold applySignal
  split
  · -- stop: halt entry appended, balance and position unchanged
    refine ⟨?_, h2⟩
    dsimp only
    rw [tradeProfitSum_append, tradeEntryFeeSum_append]
    simp only [tradeProfitSum, tradeEntryFeeSum]
    linarith
  · split
    · rename_i hc
      exact openPos_invariant config candle sig st hc.2 ⟨h1, h2⟩
    · split
      · rename_i hc
        exact openPos_invariant config candle sig st hc.2 ⟨h1, h2⟩
      · split
        · exact ⟨h1, h2⟩
        · rename_i p heq
          split
          · exact closePos_invariant config candle p _ st heq ⟨h1, h2⟩
          · split
            · split
              · exact closePos_invariant config candle p _ st heq ⟨h1, h2⟩
              · split
                · exact closePos_invariant config candle p _ st heq ⟨h1, h2⟩
                · exact ⟨h1, h2⟩
            · split
              · exact closePos_invariant config candle p _ st heq ⟨h1, h2⟩
              · split
                · exact closePos_invariant config candle p _ st heq ⟨h1, h2⟩
                · exact ⟨h1, h2⟩

/-- One loop iteration preserves the accounting invariant. -/
theorem simStep_invariant (config : Config) (pd : List Candle) (i : ℕ)
    (st : SimState) (h : balanceLedgerInvariant config st) :
    balanceLedgerInvariant config (simStep config pd i st).1 := by
  unfold simStep
  split
  · exact applySignal_invariant config _ _ st h
  · split
    · exact h
    · exact applySignal_invariant config _ _ st h

/-- The loop preserves the accounting invariant from any start state. -/
theorem runAux_invariant (config : Config) (pd : List Candle) :
    ∀ (fuel i : ℕ) (st : SimState), balanceLedgerInvariant config st →
      balanceLedgerInvariant config (runAux config pd fuel i st) := by
  intro fuel
  induction fuel with
  | zero => intro i st h; exact h
  | succ n ih =>
    intro i st h
    unfold runAux
    split
    · rcases hs : simStep config pd i st with ⟨st2, b⟩
      have h2 : balanceLedgerInvariant config st2 := by
        have hstep := simStep_invariant config pd i st h
        rw [hs] at hstep
        exact hstep
      cases b
      · dsimp only
        exact h2
      · dsimp only
        exact ih (i + 1) st2 h2
    · exact h

/-- C3 (amended): at the end of every simulation run, the cash balance plus
the funds held by any still-open position (margin + entry fee) equals the
initial balance plus the sum of recorded trade profits minus the entry fees
of the recorded trades; and if a position is open, the balance equals the
entry-time balance minus (margin + entry fee).  When no position remains
open this specialises to the claimed equation
`finalBalance = initialBalance + Σ profit − Σ entry fees`, and together with
the open-position equation it gives the per-trade accounting identity
`balance after close = balance before open − (margin + entry fee) + (margin
+ realized P&L − exit fee)`. -/
theorem c3_balance_invariant (config : Config) (pd : List Candle) :
    balanceLedgerInvariant config (simRun config pd) := by
  unfold simRun
  apply runAux_invariant
  constructor
  · dsimp [heldFunds, tradeProfitSum, tradeEntryFeeSum]
    ring
  · intro p hp
    exact absurd hp (by simp)

/-- C3 witness: the invariant instantiated on the rising 51-bar run (which
ends with a position still open). -/
theorem c3_witness : balanceLedgerInvariant cfg0 (simRun cfg0 risingCandles) :=
  c3_balance_invariant cfg0 risingCandles

set_option maxRecDepth 1000000 in
/-- C3 counterexample: the rising 51-bar history opens a position on its
single simulated step and ends with it still open, so the final balance does
NOT equal `initialBalance + Σ trade profits − Σ entry fees` (the open
position still holds margin 2000 plus its 1.5 entry fee). -/
theorem c3_counterexample :
    (simRun cfg0 risingCandles).position ≠ none ∧
    (simRun cfg0 risingCandles).balance ≠
      cfg0.initialBalance + tradeProfitSum (simRun cfg0 risingCandles).ledger -
        tradeEntryFeeSum cfg0 (simRun cfg0 risingCandles).ledger := by
  decide

end Bob
